import Mathlib

/-
Verification development for the link-mono OAuth broker.

The development shallowly embeds the server-side request pipeline of the
repository: the at-rest encryption routine (context/SECURITY.md, `encrypt` /
`decrypt`), the request authenticator middlewares (`verifyApiKey`,
`verifySignature`, `errorHandler` from the backend-structure document), the
OAuth state consumption path (`validateOAuthState` from context/SECURITY.md),
and the token-refresh routine (`getValidToken` from the flows document).

Modelling conventions:
* machine integers and epoch times are `Nat` / `Int` with explicit `% 2^w`
  where overflow matters; byte strings are `List Nat` with entries `< 256`;
  JavaScript strings are `List Char` or `String`;
* the Node `crypto` library primitives (AES-256-GCM keystream, auth tag,
  SHA-256) are external to the repository, so they are modelled by concrete
  executable mixing functions that preserve the structural properties the
  code relies on (CTR-style XOR keystream, tag determined by key/iv/ct,
  32-byte digests); no claim below depends on the numeric values of these
  primitives, only on their shapes;
* randomness (`crypto.randomBytes`) is made explicit as a generator argument;
* fallible JavaScript code (thrown exceptions) returns `Option` / `Except`.
-/

namespace LinkMono

/-! ### Bytes, hex encoding, and `String.split` (Node `Buffer` semantics) -/

/-- Lower-case hex digit for a value `< 16`, as produced by
`Buffer.toString('hex')`. -/
def hexDigitChar (n : Nat) : Char :=
  if n < 10 then Char.ofNat (48 + n) else Char.ofNat (87 + n)

/-- Lower-case hex encoding of a byte list (`Buffer.toString('hex')`). -/
def hexOfBytes : List Nat → List Char
  | [] => []
  | b :: bs => hexDigitChar (b / 16) :: hexDigitChar (b % 16) :: hexOfBytes bs

/-- Value of a hex digit character, `none` for a non-hex character. -/
def hexVal (c : Char) : Option Nat :=
  if 48 ≤ c.toNat ∧ c.toNat ≤ 57 then some (c.toNat - 48)
  else if 97 ≤ c.toNat ∧ c.toNat ≤ 102 then some (c.toNat - 87)
  else none

/-- Hex decoding (`Buffer.from(s, 'hex')`); in this model a malformed hex
string yields `none` (Node silently truncates instead, but the development
only ever decodes well-formed hex). -/
def bytesOfHex : List Char → Option (List Nat)
  | [] => some []
  | [_] => none
  | c1 :: c2 :: cs => do
    let h ← hexVal c1
    let l ← hexVal c2
    let rest ← bytesOfHex cs
    pure ((16 * h + l) :: rest)

/-- Accumulator-based splitter underlying `splitOnChar`. -/
def splitOnCharAux (sep : Char) : List Char → List Char → List (List Char)
  | [], acc => [acc.reverse]
  | c :: cs, acc =>
    if c = sep then acc.reverse :: splitOnCharAux sep cs []
    else splitOnCharAux sep cs (c :: acc)

/-- JavaScript `string.split(sep)` for a one-character separator. -/
def splitOnChar (sep : Char) (s : List Char) : List (List Char) :=
  splitOnCharAux sep s []

theorem hexVal_hexDigitChar (n : Nat) (h : n < 16) :
    hexVal (hexDigitChar n) = some n := by
  interval_cases n <;> decide

theorem hexDigitChar_ne_colon (n : Nat) (h : n < 16) : hexDigitChar n ≠ ':' := by
  interval_cases n <;> decide

theorem hexOfBytes_length (bs : List Nat) :
    (hexOfBytes bs).length = 2 * bs.length := by
  induction bs with
  | nil => rfl
  | cons b bs ih => simp [hexOfBytes, ih]; ring

theorem bytesOfHex_hexOfBytes (bs : List Nat) (h : ∀ b ∈ bs, b < 256) :
    bytesOfHex (hexOfBytes bs) = some bs := by
  induction bs with
  | nil => rfl
  | cons b bs ih =>
    have hb : b < 256 := h b (List.mem_cons_self _ _)
    have hhi : b / 16 < 16 := Nat.div_lt_of_lt_mul hb
    have hlo : b % 16 < 16 := Nat.mod_lt _ (by omega)
    have hrest := ih (fun x hx => h x (List.mem_cons_of_mem _ hx))
    simp [hexOfBytes, bytesOfHex, hexVal_hexDigitChar _ hhi,
      hexVal_hexDigitChar _ hlo, hrest, Option.bind]
    omega

theorem colon_not_mem_hexOfBytes (bs : List Nat) (h : ∀ b ∈ bs, b < 256) :
    ':' ∉ hexOfBytes bs := by
  induction bs with
  | nil => simp [hexOfBytes]
  | cons b bs ih =>
    have hb : b < 256 := h b (List.mem_cons_self _ _)
    have hhi : b / 16 < 16 := Nat.div_lt_of_lt_mul hb
    have hlo : b % 16 < 16 := Nat.mod_lt _ (by omega)
    have hrest := ih (fun x hx => h x (List.mem_cons_of_mem _ hx))
    simp [hexOfBytes]
    refine ⟨?_, ?_, hrest⟩
    · exact fun hc => hexDigitChar_ne_colon _ hhi hc.symm
    · exact fun hc => hexDigitChar_ne_colon _ hlo hc.symm

theorem splitOnCharAux_no_sep (sep : Char) (a acc : List Char) (h : sep ∉ a) :
    splitOnCharAux sep a acc = [acc.reverse ++ a] := by
  induction a generalizing acc with
  | nil => simp [splitOnCharAux]
  | cons c cs ih =>
    have hc : c ≠ sep := fun hc => h (hc ▸ List.mem_cons_self _ _)
    have hcs : sep ∉ cs := fun hm => h (List.mem_cons_of_mem _ hm)
    simp [splitOnCharAux, hc, ih _ hcs]

theorem splitOnCharAux_append_sep (sep : Char) (a rest acc : List Char)
    (h : sep ∉ a) :
    splitOnCharAux sep (a ++ sep :: rest) acc =
      (acc.reverse ++ a) :: splitOnCharAux sep rest [] := by
  induction a generalizing acc with
  | nil => simp [splitOnCharAux]
  | cons c cs ih =>
    have hc : c ≠ sep := fun hc => h (hc ▸ List.mem_cons_self _ _)
    have hcs : sep ∉ cs := fun hm => h (List.mem_cons_of_mem _ hm)
    simp [splitOnCharAux, hc, ih _ hcs]

theorem splitOnChar_three (sep : Char) (a b c : List Char)
    (ha : sep ∉ a) (hb : sep ∉ b) (hc : sep ∉ c) :
    splitOnChar sep (a ++ sep :: (b ++ sep :: c)) = [a, b, c] := by
  unfold splitOnChar
  rw [splitOnCharAux_append_sep sep a _ _ ha,
    splitOnCharAux_append_sep sep b _ _ hb,
    splitOnCharAux_no_sep sep c _ hc]
  simp

/-! ### AES-256-GCM model (context/SECURITY.md, "Encryption Implementation")

The source reads

  const ALGORITHM = 'aes-256-gcm';
  const IV_LENGTH = 16;
  const AUTH_TAG_LENGTH = 16;
  function encrypt(plaintext) \x7b
    const iv = crypto.randomBytes(IV_LENGTH);
    const cipher = crypto.createCipheriv(ALGORITHM, MASTER_KEY, iv);
    let encrypted = cipher.update(plaintext, 'utf8', 'hex');
    encrypted += cipher.final('hex');
    const authTag = cipher.getAuthTag();
    return iv.toString('hex') + ':' + authTag.toString('hex') + ':' + encrypted;
  \x7d
  function decrypt(ciphertext) \x7b
    const [ivHex, authTagHex, encryptedData] = ciphertext.split(':');
    ... createDecipheriv ... setAuthTag ... final ...
  \x7d

AES-GCM is CTR-mode XOR with a keystream determined by (key, iv) plus an
authentication tag determined by (key, iv, ciphertext); the model below keeps
exactly that structure with executable stand-ins for the keystream and tag. -/

def IV_LENGTH : Nat := 16

def AUTH_TAG_LENGTH : Nat := 16

/-- One step of the mixing accumulator used by the cipher / hash stand-ins
(arithmetic is explicitly reduced mod 2^32). -/
def mix (a b : Nat) : Nat := (a * 131 + b + 17) % 4294967296

/-- Model keystream seed for a (key, iv) pair. -/
def keyIvSeed (key iv : List Nat) : Nat := (key ++ iv).foldl mix 5381

/-- Model keystream byte `i` for a (key, iv) pair. -/
def ksByte (key iv : List Nat) (i : Nat) : Nat :=
  (keyIvSeed key iv * (2 * i + 1) + i * i) % 256

/-- CTR-mode XOR of the keystream into `data`, starting at counter `i`. -/
def ctrXorFrom (key iv : List Nat) (i : Nat) : List Nat → List Nat
  | [] => []
  | b :: bs => (b ^^^ ksByte key iv i) :: ctrXorFrom key iv (i + 1) bs

/-- CTR-mode XOR of the keystream into `data` (AES-GCM encryption and
decryption of the payload are both this operation). -/
def ctrXor (key iv data : List Nat) : List Nat := ctrXorFrom key iv 0 data

/-- Model GCM authentication tag: `AUTH_TAG_LENGTH` bytes determined by the
key, the IV, and the ciphertext. -/
def gcmTag (key iv ct : List Nat) : List Nat :=
  (List.range AUTH_TAG_LENGTH).map
    (fun j => (keyIvSeed key iv + ct.foldl mix 7 * (j + 3) + j) % 256)

/-- The encryption routine with its IV made explicit
(`crypto.randomBytes(IV_LENGTH)` is the caller-supplied `iv` here). Output is
the stored string `hex(iv) ":" hex(authTag) ":" hex(ciphertext)`. -/
def encryptWithIV (key iv pt : List Nat) : List Char :=
  hexOfBytes iv ++ ':' :: (hexOfBytes (gcmTag key iv (ctrXor key iv pt)) ++
    ':' :: hexOfBytes (ctrXor key iv pt))

/-- The fresh IV drawn by `encrypt`: `IV_LENGTH` bytes from the random
generator `rand`. -/
def mkIV (rand : Nat → Nat) : List Nat :=
  (List.range IV_LENGTH).map (fun i => rand i % 256)

/-- `encrypt` from context/SECURITY.md with the randomness explicit. -/
def encrypt (key : List Nat) (rand : Nat → Nat) (pt : List Nat) : List Char :=
  encryptWithIV key (mkIV rand) pt

/-- `decrypt` from context/SECURITY.md. JavaScript array destructuring of
`ciphertext.split(':')` takes the first three segments and ignores any
further ones; a missing segment or a failed auth-tag check throws, modelled
as `none`. -/
def decrypt (key : List Nat) (s : List Char) : Option (List Nat) :=
  match splitOnChar ':' s with
  | ivHex :: tagHex :: ctHex :: _ => do
    let iv ← bytesOfHex ivHex
    let tag ← bytesOfHex tagHex
    let ct ← bytesOfHex ctHex
    if gcmTag key iv ct = tag then some (ctrXor key iv ct) else none
  | _ => none

theorem ksByte_lt (key iv : List Nat) (i : Nat) : ksByte key iv i < 256 :=
  Nat.mod_lt _ (by omega)

theorem xor_byte_lt {a b : Nat} (ha : a < 256) (hb : b < 256) : a ^^^ b < 256 := by
  have : a ^^^ b < 2 ^ 8 := Nat.xor_lt_two_pow ha hb
  simpa using this

theorem ctrXorFrom_ctrXorFrom (key iv : List Nat) (i : Nat) (data : List Nat) :
    ctrXorFrom key iv i (ctrXorFrom key iv i data) = data := by
  induction data generalizing i with
  | nil => rfl
  | cons b bs ih =>
    simp [ctrXorFrom, ih, Nat.xor_assoc, Nat.xor_self]

theorem ctrXor_ctrXor (key iv data : List Nat) :
    ctrXor key iv (ctrXor key iv data) = data :=
  ctrXorFrom_ctrXorFrom key iv 0 data

theorem ctrXorFrom_lt (key iv : List Nat) (i : Nat) (data : List Nat)
    (h : ∀ b ∈ data, b < 256) : ∀ b ∈ ctrXorFrom key iv i data, b < 256 := by
  induction data generalizing i with
  | nil => simp [ctrXorFrom]
  | cons b bs ih =>
    intro x hx
    simp [ctrXorFrom] at hx
    rcases hx with hx | hx
    · exact hx ▸ xor_byte_lt (h b (List.mem_cons_self _ _)) (ksByte_lt key iv i)
    · exact ih (i + 1) (fun y hy => h y (List.mem_cons_of_mem _ hy)) x hx

theorem gcmTag_lt (key iv ct : List Nat) : ∀ b ∈ gcmTag key iv ct, b < 256 := by
  intro b hb
  simp [gcmTag] at hb
  obtain ⟨j, _, hj⟩ := hb
  exact hj ▸ Nat.mod_lt _ (by omega)

theorem gcmTag_length (key iv ct : List Nat) :
    (gcmTag key iv ct).length = AUTH_TAG_LENGTH := by
  simp [gcmTag]

theorem mkIV_lt (rand : Nat → Nat) : ∀ b ∈ mkIV rand, b < 256 := by
  intro b hb
  simp [mkIV] at hb
  obtain ⟨j, _, hj⟩ := hb
  exact hj ▸ Nat.mod_lt _ (by omega)

theorem mkIV_length (rand : Nat → Nat) : (mkIV rand).length = IV_LENGTH := by
  simp [mkIV]

theorem decrypt_encryptWithIV (key iv pt : List Nat)
    (hiv : ∀ b ∈ iv, b < 256) (hpt : ∀ b ∈ pt, b < 256) :
    decrypt key (encryptWithIV key iv pt) = some pt := by
  have hct : ∀ b ∈ ctrXor key iv pt, b < 256 := ctrXorFrom_lt key iv 0 pt hpt
  have htag := gcmTag_lt key iv (ctrXor key iv pt)
  unfold decrypt encryptWithIV
  rw [splitOnChar_three ':' _ _ _ (colon_not_mem_hexOfBytes _ hiv)
    (colon_not_mem_hexOfBytes _ htag) (colon_not_mem_hexOfBytes _ hct)]
  simp [bytesOfHex_hexOfBytes _ hiv, bytesOfHex_hexOfBytes _ htag,
    bytesOfHex_hexOfBytes _ hct, Option.bind, ctrXor_ctrXor]

theorem encryptWithIV_decrypt (key iv tag ct : List Nat)
    (hiv : ∀ b ∈ iv, b < 256) (htagb : ∀ b ∈ tag, b < 256)
    (hct : ∀ b ∈ ct, b < 256) (htag : tag = gcmTag key iv ct) :
    decrypt key (hexOfBytes iv ++ ':' :: (hexOfBytes tag ++ ':' :: hexOfBytes ct)) =
        some (ctrXor key iv ct) ∧
      encryptWithIV key iv (ctrXor key iv ct) =
        hexOfBytes iv ++ ':' :: (hexOfBytes tag ++ ':' :: hexOfBytes ct) := by
  subst htag
  constructor
  · unfold decrypt
    rw [splitOnChar_three ':' _ _ _ (colon_not_mem_hexOfBytes _ hiv)
      (colon_not_mem_hexOfBytes _ htagb) (colon_not_mem_hexOfBytes _ hct)]
    simp [bytesOfHex_hexOfBytes _ hiv, bytesOfHex_hexOfBytes _ htagb,
      bytesOfHex_hexOfBytes _ hct, Option.bind]
  · unfold encryptWithIV
    rw [ctrXor_ctrXor]

theorem hexOfBytes_injOn (a b : List Nat) (ha : ∀ x ∈ a, x < 256)
    (hb : ∀ x ∈ b, x < 256) (h : hexOfBytes a = hexOfBytes b) : a = b := by
  have := bytesOfHex_hexOfBytes a ha
  rw [h, bytesOfHex_hexOfBytes b hb] at this
  exact (Option.some_injective _ this).symm

theorem encryptWithIV_ne_of_iv_ne (key iv₁ iv₂ pt : List Nat)
    (h₁ : ∀ b ∈ iv₁, b < 256) (h₂ : ∀ b ∈ iv₂, b < 256)
    (hlen : iv₁.length = iv₂.length) (hne : iv₁ ≠ iv₂) :
    encryptWithIV key iv₁ pt ≠ encryptWithIV key iv₂ pt := by
  intro h
  unfold encryptWithIV at h
  have hl : (hexOfBytes iv₁).length = (hexOfBytes iv₂).length := by
    rw [hexOfBytes_length, hexOfBytes_length, hlen]
  have := (List.append_inj h hl).1
  exact hne (hexOfBytes_injOn _ _ h₁ h₂ this)

/-- C7: for every byte string, decrypting an encryption recovers the
plaintext; on a well-formed stored value (three hex segments whose tag is the
GCM tag of its ciphertext) re-encrypting the decryption with the stored IV
reproduces the stored value; and two encryptions of the same plaintext whose
fresh random IVs differ yield distinct stored values. -/
theorem claim_C7_encrypt_decrypt_roundtrip :
    (∀ (key : List Nat) (rand : Nat → Nat) (pt : List Nat),
      (∀ b ∈ pt, b < 256) → decrypt key (encrypt key rand pt) = some pt) ∧
    (∀ key iv tag ct : List Nat,
      (∀ b ∈ iv, b < 256) → (∀ b ∈ tag, b < 256) → (∀ b ∈ ct, b < 256) →
      tag = gcmTag key iv ct →
      decrypt key
          (hexOfBytes iv ++ ':' :: (hexOfBytes tag ++ ':' :: hexOfBytes ct)) =
        some (ctrXor key iv ct) ∧
      encryptWithIV key iv (ctrXor key iv ct) =
        hexOfBytes iv ++ ':' :: (hexOfBytes tag ++ ':' :: hexOfBytes ct)) ∧
    (∀ (key : List Nat) (r₁ r₂ : Nat → Nat) (pt : List Nat),
      mkIV r₁ ≠ mkIV r₂ → encrypt key r₁ pt ≠ encrypt key r₂ pt) := by
  refine ⟨?_, ?_, ?_⟩
  · intro key rand pt hpt
    exact decrypt_encryptWithIV key (mkIV rand) pt (mkIV_lt rand) hpt
  · intro key iv tag ct hiv htagb hct htag
    exact encryptWithIV_decrypt key iv tag ct hiv htagb hct htag
  · intro key r₁ r₂ pt hne
    exact encryptWithIV_ne_of_iv_ne key (mkIV r₁) (mkIV r₂) pt (mkIV_lt r₁)
      (mkIV_lt r₂) (by rw [mkIV_length, mkIV_length]) hne

/-- C7 witness: the round-trip, the inversion on a well-formed stored value,
and IV-distinctness, each at concrete inputs. -/
theorem claim_C7_witness :
    decrypt [1, 2] (encrypt [1, 2] (fun i => i) [104, 105]) = some [104, 105] ∧
    (decrypt [1, 2]
        (hexOfBytes [3, 4] ++ ':' ::
          (hexOfBytes (gcmTag [1, 2] [3, 4] [9]) ++ ':' :: hexOfBytes [9])) =
        some (ctrXor [1, 2] [3, 4] [9]) ∧
      encryptWithIV [1, 2] [3, 4] (ctrXor [1, 2] [3, 4] [9]) =
        hexOfBytes [3, 4] ++ ':' ::
          (hexOfBytes (gcmTag [1, 2] [3, 4] [9]) ++ ':' :: hexOfBytes [9])) ∧
    encrypt [1, 2] (fun i => i) [104, 105] ≠
      encrypt [1, 2] (fun i => i + 1) [104, 105] := by
  refine ⟨?_, ?_, ?_⟩
  · exact claim_C7_encrypt_decrypt_roundtrip.1 [1, 2] (fun i => i) [104, 105]
      (by decide)
  · exact claim_C7_encrypt_decrypt_roundtrip.2.1 [1, 2] [3, 4]
      (gcmTag [1, 2] [3, 4] [9]) [9] (by decide)
      (gcmTag_lt [1, 2] [3, 4] [9]) (by decide) rfl
  · exact claim_C7_encrypt_decrypt_roundtrip.2.2 [1, 2] (fun i => i)
      (fun i => i + 1) [104, 105] (by decide)

/-! ### Claim C8: stored ciphertext format -/

/-- Character of the hex alphabet. -/
def isHexChar (c : Char) : Bool := (hexVal c).isSome

/-- Character of the base64 / base64url alphabets (padding included). -/
def isB64Char (c : Char) : Bool :=
  c.isAlphanum || c = '+' || c = '/' || c = '-' || c = '_' || c = '='

/-- Modelled from the spec: the spec's stored format for an encrypted value is
a version byte followed by the concatenation iv‖auth_tag‖ciphertext, the
whole "hex-or-base64 encoded for storage", with a 96-bit (12-byte) IV; so a
stored value must at least lie in one of those encodings' alphabets, and its
IV segment would decode to 12 bytes. -/
def specC8_encodedValue (s : List Char) : Bool :=
  s.all isHexChar || s.all isB64Char

/-- C8 counterexample: a concrete encryption. Its stored value contains the
separator ':' so it is neither a hex string nor a base64 string (refuting the
encoded-concatenation format, and with it the version prefix), and its first
segment is 32 hex characters, a 16-byte IV rather than the claimed 12-byte
(96-bit) IV. -/
theorem claim_C8_counterexample :
    specC8_encodedValue (encrypt [1, 2] (fun i => i) [104, 105]) = false ∧
    ((splitOnChar ':' (encrypt [1, 2] (fun i => i) [104, 105])).headI).length =
      32 := by
  constructor
  · decide
  · decide

/-- C8 amended: every value produced by `encrypt` is
hex(iv) ++ ":" ++ hex(auth_tag) ++ ":" ++ hex(ciphertext) — colon-separated
hex fields with no version prefix — where the IV is 16 bytes (128 bits) of
fresh randomness and the auth tag is 16 bytes. -/
theorem claim_C8_stored_format (key : List Nat) (rand : Nat → Nat)
    (pt : List Nat) :
    encrypt key rand pt =
      hexOfBytes (mkIV rand) ++ ':' ::
        (hexOfBytes (gcmTag key (mkIV rand) (ctrXor key (mkIV rand) pt)) ++
          ':' :: hexOfBytes (ctrXor key (mkIV rand) pt)) ∧
    (mkIV rand).length = 16 ∧
    (gcmTag key (mkIV rand) (ctrXor key (mkIV rand) pt)).length = 16 := by
  exact ⟨rfl, mkIV_length rand, gcmTag_length _ _ _⟩

/-! ### JSON values, `JSON.stringify`, and `JSON.parse`

`express.json()` parses the raw request body into a JavaScript value and the
verifier re-serializes that value with `JSON.stringify`. The model restricts
JSON numbers to integers (JavaScript floats are out of scope) and string
escapes to the common single-character ones; the claims below only involve
inputs inside this fragment. -/

/-- The opening brace character. -/
def lbrace : Char := Char.ofNat 123

/-- The closing brace character. -/
def rbrace : Char := Char.ofNat 125

inductive Json where
  | null
  | bool (b : Bool)
  | num (n : Int)
  | str (s : List Char)
  | arr (elems : List Json)
  | obj (members : List (List Char × Json))

/-- JSON string escaping as performed by `JSON.stringify`. -/
def escapeChar (c : Char) : List Char :=
  if c = '"' then ['\\', '"']
  else if c = '\\' then ['\\', '\\']
  else if c = '\n' then ['\\', 'n']
  else if c = '\t' then ['\\', 't']
  else if c = '\r' then ['\\', 'r']
  else [c]

/-- Escape every character of a JSON string body. -/
def escapeString (s : List Char) : List Char :=
  s.foldr (fun c acc => escapeChar c ++ acc) []

mutual

/-- `JSON.stringify`: minimal form, no added whitespace, members in order. -/
def jsonStringify : Json → List Char
  | .null => ("null").data
  | .bool true => ("true").data
  | .bool false => ("false").data
  | .num n => (toString n).data
  | .str s => '"' :: (escapeString s ++ ['"'])
  | .arr xs => '[' :: (stringifyElems xs ++ [']'])
  | .obj ms => lbrace :: (stringifyMembers ms ++ [rbrace])

/-- Comma-separated serialization of array elements. -/
def stringifyElems : List Json → List Char
  | [] => []
  | [x] => jsonStringify x
  | x :: y :: xs => jsonStringify x ++ ',' :: stringifyElems (y :: xs)

/-- Comma-separated serialization of object members. -/
def stringifyMembers : List (List Char × Json) → List Char
  | [] => []
  | [(k, v)] => '"' :: (escapeString k ++ '"' :: ':' :: jsonStringify v)
  | (k, v) :: m :: ms =>
    ('"' :: (escapeString k ++ '"' :: ':' :: jsonStringify v)) ++
      ',' :: stringifyMembers (m :: ms)

end

/-- Skip JSON whitespace. -/
def skipWs : List Char → List Char
  | c :: cs =>
    if c = ' ' ∨ c = '\n' ∨ c = '\t' ∨ c = '\r' then skipWs cs else c :: cs
  | [] => []

/-- Longest prefix of decimal digits, with the remainder. -/
def takeDigits : List Char → List Char × List Char
  | c :: cs =>
    if c.isDigit then
      let (ds, r) := takeDigits cs
      (c :: ds, r)
    else ([], c :: cs)
  | [] => ([], [])

/-- Numeric value of a digit list. -/
def digitsToNat (ds : List Char) : Nat :=
  ds.foldl (fun a c => a * 10 + (c.toNat - 48)) 0

/-- Parse a JSON string body (after the opening quote) with the common
escapes; `acc` holds the characters read so far, reversed. -/
def parseStringBody : Nat → List Char → List Char → Option (List Char × List Char)
  | 0, _, _ => none
  | fuel + 1, cs, acc =>
    match cs with
    | [] => none
    | '"' :: rest => some (acc.reverse, rest)
    | '\\' :: e :: rest =>
      let c? :=
        if e = '"' then some '"'
        else if e = '\\' then some '\\'
        else if e = '/' then some '/'
        else if e = 'n' then some '\n'
        else if e = 't' then some '\t'
        else if e = 'r' then some '\r'
        else none
      match c? with
      | some c => parseStringBody fuel rest (c :: acc)
      | none => none
    | c :: rest => parseStringBody fuel rest (c :: acc)

mutual

/-- Fuel-indexed recursive-descent JSON value parser (`JSON.parse`). -/
def parseValue : Nat → List Char → Option (Json × List Char)
  | 0, _ => none
  | fuel + 1, s =>
    match skipWs s with
    | 'n' :: 'u' :: 'l' :: 'l' :: rest => some (.null, rest)
    | 't' :: 'r' :: 'u' :: 'e' :: rest => some (.bool true, rest)
    | 'f' :: 'a' :: 'l' :: 's' :: 'e' :: rest => some (.bool false, rest)
    | '"' :: rest => do
      let (body, r) ← parseStringBody fuel rest []
      pure (.str body, r)
    | '[' :: rest =>
      match skipWs rest with
      | ']' :: r => some (.arr [], r)
      | other => do
        let (xs, r) ← parseElems fuel other
        pure (.arr xs, r)
    | '-' :: rest =>
      match takeDigits rest with
      | ([], _) => none
      | (ds, r) => some (.num (-(digitsToNat ds : Int)), r)
    | c :: rest =>
      if c = lbrace then
        match skipWs rest with
        | d :: r2 =>
          if d = rbrace then some (.obj [], r2)
          else do
            let (ms, r) ← parseMembers fuel (d :: r2)
            pure (.obj ms, r)
        | [] => none
      else if c.isDigit then
        match takeDigits (c :: rest) with
        | ([], _) => none
        | (ds, r) => some (.num (digitsToNat ds : Int), r)
      else none
    | [] => none

/-- Parse one-or-more comma-separated array elements up to `]`. -/
def parseElems : Nat → List Char → Option (List Json × List Char)
  | 0, _ => none
  | fuel + 1, s => do
    let (v, r) ← parseValue fuel s
    match skipWs r with
    | ',' :: r2 => do
      let (vs, r3) ← parseElems fuel r2
      pure (v :: vs, r3)
    | ']' :: r2 => pure ([v], r2)
    | _ => none

/-- Parse one-or-more `"key": value` object members up to the closing
brace. -/
def parseMembers : Nat → List Char → Option (List (List Char × Json) × List Char)
  | 0, _ => none
  | fuel + 1, s =>
    match skipWs s with
    | '"' :: rest => do
      let (k, r) ← parseStringBody fuel rest []
      match skipWs r with
      | ':' :: r2 => do
        let (v, r3) ← parseValue fuel r2
        match skipWs r3 with
        | ',' :: r4 => do
          let (ms, r5) ← parseMembers fuel r4
          pure ((k, v) :: ms, r5)
        | d :: r4 =>
          if d = rbrace then pure ([(k, v)], r4) else none
        | [] => none
      | _ => none
    | _ => none

end

/-- `JSON.parse` of a whole document: a parsed value followed only by
whitespace. -/
def jsonParse (s : List Char) : Option Json :=
  match parseValue (s.length + 1) s with
  | some (v, rest) => if skipWs rest = [] then some v else none
  | none => none

/-! ### Claim C1: the canonical payload the verifier recomputes

Server side (part_002 `verify-signature` middleware and context/SECURITY.md):

  const payload = `$\x7btimestamp\x7d.$\x7bJSON.stringify(req.body)\x7d`;

`req.body` is the value `express.json()` parsed from the raw body bytes. -/

/-- The verifier's recomputed canonical payload, given the already-parsed
request body: `timestamp + "." + JSON.stringify(req.body)`. -/
def verifierPayload (timestamp : List Char) (body : Json) : List Char :=
  timestamp ++ '.' :: jsonStringify body

/-- The verifier's recomputed canonical payload as a function of the raw
request body bytes: `express.json()` parses them, then `verifierPayload`
re-serializes the parsed value (`none` when body parsing fails, in which case
`express.json()` already rejected the request). -/
def verifierPayloadOfRaw (timestamp raw : List Char) : Option (List Char) :=
  (jsonParse raw).map (fun b => verifierPayload timestamp b)

/-- Modelled from the spec: the canonical payload is the byte sequence
`<timestamp> "." <request body bytes>` with the body passed through
verbatim. -/
def specC1_canonicalPayload (timestamp raw : List Char) : List Char :=
  timestamp ++ '.' :: raw

/-- C1 counterexample: for the raw body `\x7b"x": 1\x7d` (note the space) and
timestamp 1700000000, the verifier recomputes the HMAC over
`1700000000.\x7b"x":1\x7d` — the re-serialized body — which differs from the
canonical `timestamp "." raw-body-bytes` payload the claim requires. -/
theorem claim_C1_counterexample :
    verifierPayloadOfRaw (("1700000000").data) (("\x7b\"x\": 1\x7d").data) =
      some (("1700000000.\x7b\"x\":1\x7d").data) ∧
    ("1700000000.\x7b\"x\":1\x7d").data ≠
      specC1_canonicalPayload (("1700000000").data) (("\x7b\"x\": 1\x7d").data) := by
  constructor
  · decide
  · decide

/-- C1 amended: the verifier recomputes the signature over
`timestamp "." JSON.stringify(parsedBody)` — the body is re-serialized from
the parsed JSON value, not passed through verbatim — and this payload
coincides with the claimed `timestamp "." raw-body` payload exactly when
re-serialization reproduces the raw bytes. -/
theorem claim_C1_reserialized_payload (ts raw : List Char) (body : Json)
    (h : jsonParse raw = some body) :
    verifierPayloadOfRaw ts raw = some (ts ++ '.' :: jsonStringify body) ∧
    (jsonStringify body = raw →
      verifierPayloadOfRaw ts raw = some (specC1_canonicalPayload ts raw)) := by
  refine ⟨?_, ?_⟩
  · simp [verifierPayloadOfRaw, h, verifierPayload]
  · intro hid
    simp [verifierPayloadOfRaw, h, verifierPayload, specC1_canonicalPayload, hid]

/-- C1 witness: a raw body on which re-serialization is the identity, so the
amended theorem applies and the two payloads agree. -/
theorem claim_C1_witness :
    verifierPayloadOfRaw (("1700000000").data) (("\x7b\"x\":1\x7d").data) =
      some (("1700000000").data ++ '.' ::
        jsonStringify (.obj [(("x").data, .num 1)])) ∧
    verifierPayloadOfRaw (("1700000000").data) (("\x7b\"x\":1\x7d").data) =
      some (specC1_canonicalPayload (("1700000000").data)
        (("\x7b\"x\":1\x7d").data)) := by
  have h := claim_C1_reserialized_payload (("1700000000").data)
    (("\x7b\"x\":1\x7d").data) (.obj [(("x").data, .num 1)]) rfl
  exact ⟨h.1, h.2 (by decide)⟩

/-! ### HMAC-SHA-256 model

`crypto.createHmac('sha256', key).update(payload).digest('hex')`. SHA-256 is
external library code; its model below is a 32-byte digest from one mixing
pass, wrapped in the standard HMAC construction (key padded to the 64-byte
block, inner pad 0x36, outer pad 0x5c). The claims depend only on the digest
length and determinism. -/

/-- Model SHA-256: a 32-byte digest over a byte message. -/
def sha256Model (msg : List Nat) : List Nat :=
  (List.range 32).map
    (fun j => (msg.foldl mix 1469598103 * (j + 11) + j * j) % 256)

/-- HMAC block-sized key: hash an over-long key, zero-pad to 64 bytes. -/
def hmacKeyPad (key : List Nat) : List Nat :=
  let k := if 64 < key.length then sha256Model key else key
  k ++ List.replicate (64 - k.length) 0

/-- HMAC-SHA-256 over bytes. -/
def hmacSHA256 (key msg : List Nat) : List Nat :=
  let k := hmacKeyPad key
  sha256Model ((k.map (fun b => b ^^^ 92)) ++
    sha256Model ((k.map (fun b => b ^^^ 54)) ++ msg))

/-- `createHmac('sha256', secretKey).update(payload).digest('hex')` on
JavaScript strings (characters taken by code point; claim inputs are
ASCII). -/
def hmacSHA256Hex (key msg : List Char) : List Char :=
  hexOfBytes (hmacSHA256 (key.map Char.toNat) (msg.map Char.toNat))

theorem sha256Model_length (msg : List Nat) : (sha256Model msg).length = 32 := by
  simp [sha256Model]

theorem hmacSHA256Hex_length (key msg : List Char) :
    (hmacSHA256Hex key msg).length = 64 := by
  simp [hmacSHA256Hex, hmacSHA256, hexOfBytes_length, sha256Model_length]

/-! ### Request authenticator middleware chain (part_002)

`verifyApiKey` (src/middlewares/verify-api-key.ts) resolves the public key to
an active row, attaches it to the request, and updates `last_used_at`
unconditionally before calling `next()`; `verifySignature`
(src/middlewares/verify-signature.ts) then checks the timestamp window,
decrypts the stored secret, recomputes the HMAC, and compares with
`crypto.timingSafeEqual`; `errorHandler` (src/middlewares/error-handler.ts)
maps a `LinkError` to its own status/code and anything else to
500 `INTERNAL_ERROR`. -/

/-- A thrown JavaScript error: a `LinkError` with code and HTTP status, or a
non-`LinkError` exception such as the `TypeError`/`RangeError` raised by
`crypto.timingSafeEqual` on buffers of unequal length. -/
inductive JsError where
  | link (code : String) (status : Nat)
  | typeErr (message : String)
deriving DecidableEq

/-- A `project_api_keys` row (the columns the authenticator touches). -/
structure ApiKeyRow where
  id : Nat
  public_key : String
  secret_key_encrypted : List Char
  status : String
  last_used_at : Option Nat
deriving DecidableEq

/-- The database state seen by the authenticator. -/
structure Db where
  project_api_keys : List ApiKeyRow
deriving DecidableEq

/-- An inbound request: the three authentication headers plus the parsed
JSON body. -/
structure ApiRequest where
  publicKeyHeader : Option String
  timestampHeader : Option String
  signatureHeader : Option String
  body : Json

/-- The supabase lookup
`.eq('public_key', pk).eq('status', 'active').single()`. -/
def findActiveKey (db : Db) (pk : String) : Option ApiKeyRow :=
  db.project_api_keys.find?
    (fun k => k.public_key == pk && k.status == ("active"))

/-- The `last_used_at` write performed inside `verifyApiKey`. -/
def updateLastUsed (db : Db) (keyId : Nat) (now : Nat) : Db :=
  ⟨db.project_api_keys.map
    (fun k => if k.id = keyId then { k with last_used_at := some now } else k)⟩

/-- `verifyApiKey` middleware: missing or unresolvable key rejects with
`INVALID_API_KEY` (401); on success the key row is attached to the request
and `last_used_at` is updated before control passes to the next
middleware. -/
def verifyApiKey (db : Db) (now : Nat) (req : ApiRequest) :
    Except JsError (ApiKeyRow × Db) :=
  match req.publicKeyHeader with
  | none => .error (.link ("INVALID_API_KEY") 401)
  | some pk =>
    match findActiveKey db pk with
    | none => .error (.link ("INVALID_API_KEY") 401)
    | some apiKey => .ok (apiKey, updateLastUsed db apiKey.id now)

/-- JavaScript `parseInt`: leading optional sign and decimal digits, trailing
characters ignored, `none` for NaN. -/
def parseIntJs (s : String) : Option Int :=
  match s.data with
  | '-' :: cs =>
    match takeDigits cs with
    | ([], _) => none
    | (ds, _) => some (-(digitsToNat ds : Int))
  | cs =>
    match takeDigits cs with
    | ([], _) => none
    | (ds, _) => some ((digitsToNat ds : Int))

/-- The middleware's timestamp staleness test
`Math.abs(now - parseInt(timestamp)) > 300`; a NaN comparison is false in
JavaScript, so an unparsable timestamp is not stale. -/
def timestampStale (now : Nat) (timestamp : String) : Bool :=
  match parseIntJs timestamp with
  | some t => decide (300 < ((now : Int) - t).natAbs)
  | none => false

/-- `crypto.timingSafeEqual(Buffer.from(a), Buffer.from(b))`: throws when the
buffers differ in length, otherwise constant-time equality. -/
def timingSafeEqual (a b : List Char) : Except JsError Bool :=
  if a.length ≠ b.length then
    .error (.typeErr ("Input buffers must have the same byte length"))
  else .ok (a == b)

/-- Decrypted secret bytes viewed as a JavaScript string. -/
def bytesToChars (bs : List Nat) : List Char := bs.map Char.ofNat

/-- `verifySignature` middleware (runs after `verifyApiKey`): missing headers
reject; then the ±300 s timestamp window; then the stored secret is decrypted
and the expected signature recomputed over
`timestamp + "." + JSON.stringify(req.body)`; the comparison uses
`crypto.timingSafeEqual`, whose length-mismatch exception propagates. -/
def verifySignature (masterKey : List Nat) (now : Nat) (apiKey : ApiKeyRow)
    (req : ApiRequest) : Except JsError Unit :=
  match req.signatureHeader, req.timestampHeader with
  | some signature, some timestamp =>
    if timestampStale now timestamp then .error (.link ("TIMESTAMP_EXPIRED") 401)
    else
      match decrypt masterKey apiKey.secret_key_encrypted with
      | none => .error (.typeErr ("decrypt threw"))
      | some secretBytes =>
        let expectedSignature := hmacSHA256Hex (bytesToChars secretBytes)
          (verifierPayload timestamp.data req.body)
        match timingSafeEqual signature.data expectedSignature with
        | .error e => .error e
        | .ok true => .ok ()
        | .ok false => .error (.link ("INVALID_SIGNATURE") 401)
  | _, _ => .error (.link ("INVALID_SIGNATURE") 401)

/-- `errorHandler` middleware: a `LinkError` keeps its status and code; any
other thrown value becomes 500 `INTERNAL_ERROR`. -/
def errorHandler : JsError → Nat × String
  | .link code status => (status, code)
  | .typeErr _ => (500, "INTERNAL_ERROR")

/-- The authenticated-route pipeline: `verifyApiKey`, then `verifySignature`,
with any thrown error rendered by `errorHandler`. Returns the HTTP status and
error code (or 200/"OK") together with the final database state — note the
`last_used_at` update from `verifyApiKey` persists even when a later check
rejects the request. -/
def handleRequest (masterKey : List Nat) (db : Db) (now : Nat)
    (req : ApiRequest) : (Nat × String) × Db :=
  match verifyApiKey db now req with
  | .error e => (errorHandler e, db)
  | .ok (apiKey, db1) =>
    match verifySignature masterKey now apiKey req with
    | .error e => (errorHandler e, db1)
    | .ok _ => ((200, "OK"), db1)

/-! ### Claim C9: `last_used_at` is written before verification finishes -/

/-- Concrete API-key row for the C9 run: active, never used. -/
def c9_key : ApiKeyRow :=
  ⟨1, "pk_test_AAAA", ("irrelevant").data, "active", none⟩

/-- Database holding only `c9_key`. -/
def c9_db : Db := ⟨[c9_key]⟩

/-- The C9 request: valid public key, timestamp 400 s older than the server
clock (outside the ±300 s window), arbitrary signature. -/
def c9_req : ApiRequest :=
  ⟨some ("pk_test_AAAA"), some ("1700000000"), some ("deadbeef"),
    Json.obj [(("x").data, .num 1)]⟩

/-- C9: evaluating the middleware chain at the failing input. The request is
rejected with 401 `TIMESTAMP_EXPIRED`, yet the key's `last_used_at` — `none`
before the request — has been updated to the request time, because
`verifyApiKey` performs the write before `verifySignature` runs the
timestamp and signature checks. context/SECURITY.md's own verification
algorithm places the `last_used_at` update after the signature comparison,
as the claim states. -/
theorem claim_C9_code_bug_run :
    handleRequest [] c9_db 1700000400 c9_req =
      ((401, "TIMESTAMP_EXPIRED"),
        ⟨[⟨1, "pk_test_AAAA", ("irrelevant").data, "active",
          some 1700000400⟩]⟩) ∧
    c9_key.last_used_at = none := by
  constructor
  · decide
  · rfl

/-! ### Claim C10: signature length mismatch becomes 500 INTERNAL_ERROR -/

set_option maxRecDepth 4000

/-- C10: for any request that passes the API-key and timestamp checks but
carries a signature whose byte length differs from 64 (the length of the
recomputed lowercase-hex HMAC digest), `crypto.timingSafeEqual` throws on the
length mismatch; the exception is not a `LinkError`, so `errorHandler`
renders 500 `INTERNAL_ERROR` rather than 401 `INVALID_SIGNATURE`. -/
theorem claim_C10_length_mismatch_internal_error
    (masterKey : List Nat) (db : Db) (now : Nat) (req : ApiRequest)
    (pk ts sig : String) (apiKey : ApiKeyRow) (secretBytes : List Nat)
    (hpk : req.publicKeyHeader = some pk)
    (hts : req.timestampHeader = some ts)
    (hsig : req.signatureHeader = some sig)
    (hfind : findActiveKey db pk = some apiKey)
    (hfresh : timestampStale now ts = false)
    (hdec : decrypt masterKey apiKey.secret_key_encrypted = some secretBytes)
    (hlen : sig.data.length ≠ 64) :
    (handleRequest masterKey db now req).1 = (500, "INTERNAL_ERROR") ∧
    (handleRequest masterKey db now req).1 ≠ (401, "INVALID_SIGNATURE") := by
  have hexp : (hmacSHA256Hex (bytesToChars secretBytes)
      (verifierPayload ts.data req.body)).length = 64 :=
    hmacSHA256Hex_length _ _
  have hvs : verifySignature masterKey now apiKey req =
      .error (.typeErr ("Input buffers must have the same byte length")) := by
    unfold verifySignature
    rw [hsig, hts]
    simp only [hfresh, Bool.false_eq_true, if_false, hdec]
    unfold timingSafeEqual
    rw [hexp, if_pos hlen]
  have hmain : (handleRequest masterKey db now req).1 =
      (500, "INTERNAL_ERROR") := by
    unfold handleRequest verifyApiKey
    rw [hpk]
    simp only [hfind, hvs, errorHandler]
  exact ⟨hmain, by simp [hmain]⟩

/-- Encrypted secret for the C10 witness run. -/
def c10_secret_enc : List Char :=
  encrypt [9] (fun i => i) ((("sk_test_BBBB").data).map Char.toNat)

/-- API-key row for the C10 witness run. -/
def c10_key : ApiKeyRow := ⟨1, "pk_test_AAAA", c10_secret_enc, "active", none⟩

/-- Database for the C10 witness run. -/
def c10_db : Db := ⟨[c10_key]⟩

/-- The C10 witness request: valid key, fresh timestamp, 5-byte signature. -/
def c10_req : ApiRequest :=
  ⟨some ("pk_test_AAAA"), some ("1700000000"), some ("short"), Json.null⟩

/-- C10 witness: the pipeline at a concrete length-mismatched request. -/
theorem claim_C10_witness :
    (handleRequest [9] c10_db 1700000000 c10_req).1 =
      (500, "INTERNAL_ERROR") ∧
    (handleRequest [9] c10_db 1700000000 c10_req).1 ≠
      (401, "INVALID_SIGNATURE") :=
  claim_C10_length_mismatch_internal_error [9] c10_db 1700000000 c10_req
    ("pk_test_AAAA") ("1700000000") ("short") c10_key
    ((("sk_test_BBBB").data).map Char.toNat)
    rfl rfl rfl (by decide) (by decide)
    (by
      show decrypt [9] (encrypt [9] (fun i => i)
        ((("sk_test_BBBB").data).map Char.toNat)) = _
      exact decrypt_encryptWithIV [9] (mkIV (fun i => i))
        ((("sk_test_BBBB").data).map Char.toNat) (mkIV_lt _) (by decide))
    (by decide)

/-! ### OAuth state consumption (context/SECURITY.md `validateOAuthState`,
part_003 Phase 3)

The callback loads the state row by token, rejects when it is absent,
already used, or expired, and then marks it used with an unconditional
`markUsed(id)` update — a check-then-act sequence, not a conditional update
on `used_at IS NULL` with an affected-row count. In the Phase 3 flow the
mark (step 7) even follows the code exchange (step 2). -/

/-- An `oauth_states` row (the columns the callback touches). -/
structure OAuthStateRow where
  id : Nat
  state_token : String
  expires_at : Nat
  used_at : Option Nat
deriving DecidableEq

/-- `db.oauthStates.findByToken(state)` (`state_token` is unique). -/
def findByToken (states : List OAuthStateRow) (t : String) :
    Option OAuthStateRow :=
  states.find? (fun r => r.state_token == t)

/-- `db.oauthStates.markUsed(id)`: unconditionally sets `used_at`. -/
def markUsed (states : List OAuthStateRow) (stateId now : Nat) :
    List OAuthStateRow :=
  states.map
    (fun r => if r.id = stateId then { r with used_at := some now } else r)

/-- `validateOAuthState` (context/SECURITY.md): reject when the row is
missing, already used, or expired; otherwise mark it used and return it with
the updated table. -/
def validateOAuthState (states : List OAuthStateRow) (now : Nat)
    (state : String) : Except String (OAuthStateRow × List OAuthStateRow) :=
  match findByToken states state with
  | none => .error ("INVALID_STATE")
  | some stateRecord =>
    if stateRecord.used_at.isSome then .error ("INVALID_STATE")
    else if stateRecord.expires_at < now then .error ("INVALID_STATE")
    else .ok (stateRecord, markUsed states stateRecord.id now)

/-- Progress of one callback handler: not yet started; checks done (with the
verdict and, when positive, the row id to mark); finished (`true` = the
302-success path, `false` = `INVALID_STATE`). -/
inductive CbPhase where
  | start
  | checked (ok : Bool) (stateId : Nat)
  | done (ok : Bool)
deriving DecidableEq

/-- One step of a callback handler for token `state`. The first step runs
the checks of `validateOAuthState` against the current table (a database
read — a suspension point — with the `markUsed` write still pending); the
second step performs the code exchange and the `markUsed` write. -/
def cbStep (now : Nat) (state : String) :
    List OAuthStateRow × CbPhase → List OAuthStateRow × CbPhase
  | (states, .start) =>
    match validateOAuthState states now state with
    | .error _ => (states, .checked false 0)
    | .ok (r, _) => (states, .checked true r.id)
  | (states, .checked true stateId) => (markUsed states stateId now, .done true)
  | (states, .checked false _) => (states, .done false)
  | (states, .done b) => (states, .done b)

/-- Interleaved execution of two concurrent callbacks with the same `state`
token; `sched` says which handler (`false` = A, `true` = B) takes its next
step. Returns the final table and both handlers' phases. -/
def runTwoCallbacks (now : Nat) (state : String)
    (states : List OAuthStateRow) (sched : List Bool) :
    List OAuthStateRow × CbPhase × CbPhase :=
  sched.foldl
    (fun acc b =>
      match acc with
      | (st, pa, pb) =>
        if b then
          match cbStep now state (st, pb) with
          | (st', pb') => (st', pa, pb')
        else
          match cbStep now state (st, pa) with
          | (st', pa') => (st', pa', pb))
    (states, .start, .start)

/-- C2 counterexample: one unused, unexpired state row and two concurrent
callbacks that both run their checks before either marks the row: both
finish on the success path — not "exactly one succeeds and the other
receives INVALID_STATE". -/
theorem claim_C2_counterexample :
    (runTwoCallbacks 100 ("S") [⟨1, "S", 9999, none⟩]
        [false, true, false, true]).2 =
      (CbPhase.done true, CbPhase.done true) := by
  decide

theorem findByToken_markUsed (states : List OAuthStateRow) (t : String)
    (r : OAuthStateRow) (now : Nat)
    (hids : (states.map OAuthStateRow.id).Nodup)
    (hfind : findByToken states t = some r) :
    findByToken (markUsed states r.id now) t =
      some { r with used_at := some now } := by
  induction states with
  | nil => simp [findByToken] at hfind
  | cons s ss ih =>
    by_cases hs : s.state_token == t
    · have hr : r = s := by
        simp [findByToken, List.find?, hs] at hfind
        exact hfind.symm
      subst hr
      simp [markUsed, findByToken, List.find?, hs]
    · have hfind' : findByToken ss t = some r := by
        simpa [findByToken, List.find?, hs] using hfind
      have hmem : r ∈ ss := List.mem_of_find?_eq_some hfind'
      have hne : s.id ≠ r.id := by
        intro h
        have : r.id ∈ ss.map OAuthStateRow.id := List.mem_map_of_mem _ hmem
        rw [List.map_cons] at hids
        exact (List.nodup_cons.mp hids).1 (h ▸ this)
      have hids' : (ss.map OAuthStateRow.id).Nodup := by
        rw [List.map_cons] at hids
        exact (List.nodup_cons.mp hids).2
      have := ih hids' hfind'
      simpa [markUsed, findByToken, List.find?, hs, hne] using this

/-- C2 amended: consumption is a non-atomic check-then-mark. Run
sequentially it is single-use — after a successful consumption any later
callback with the same token gets `INVALID_STATE` — and a serialized pair of
callbacks ends with exactly one success; but two concurrent callbacks that
both pass the checks before either marks the row both take the success
path. -/
theorem claim_C2_check_then_mark_consumption :
    (∀ (states : List OAuthStateRow) (now now₂ : Nat) (t : String)
        (r : OAuthStateRow) (states' : List OAuthStateRow),
      (states.map OAuthStateRow.id).Nodup →
      validateOAuthState states now t = .ok (r, states') →
      validateOAuthState states' now₂ t = .error ("INVALID_STATE")) ∧
    (∀ (stateId exp now : Nat) (t : String), ¬ exp < now →
      (runTwoCallbacks now t [⟨stateId, t, exp, none⟩]
          [false, false, true, true]).2 =
        (CbPhase.done true, CbPhase.done false)) ∧
    (∀ (stateId exp now : Nat) (t : String), ¬ exp < now →
      (runTwoCallbacks now t [⟨stateId, t, exp, none⟩]
          [false, true, false, true]).2 =
        (CbPhase.done true, CbPhase.done true)) := by
  refine ⟨?_, ?_, ?_⟩
  · intro states now now₂ t r states' hids hok
    unfold validateOAuthState at hok
    split at hok
    · exact absurd hok (by simp)
    · rename_i stateRecord hfind
      by_cases hused : stateRecord.used_at.isSome
      · rw [if_pos hused] at hok
        exact absurd hok (by simp)
      · rw [if_neg hused] at hok
        by_cases hexp2 : stateRecord.expires_at < now
        · rw [if_pos hexp2] at hok
          exact absurd hok (by simp)
        · rw [if_neg hexp2] at hok
          have hr1 : stateRecord = r := by
            have h := hok
            simp at h
            exact h.1
          have hr2 : states' = markUsed states stateRecord.id now := by
            have h := hok
            simp at h
            exact h.2.symm
          subst hr1
          have hfind' := findByToken_markUsed states t stateRecord now hids hfind
          rw [hr2]
          unfold validateOAuthState
          rw [hfind']
          simp
  · intro stateId exp now t hexp
    simp [runTwoCallbacks, cbStep, validateOAuthState, findByToken,
      List.find?, markUsed, hexp]
  · intro stateId exp now t hexp
    simp [runTwoCallbacks, cbStep, validateOAuthState, findByToken,
      List.find?, markUsed, hexp]

/-- C2 witness: the amended theorem at a concrete table and schedules. -/
theorem claim_C2_witness :
    validateOAuthState
        (markUsed [⟨1, "S", 9999, none⟩] 1 100) 100 ("S") =
      .error ("INVALID_STATE") ∧
    (runTwoCallbacks 100 ("S") [⟨1, "S", 9999, none⟩]
        [false, false, true, true]).2 =
      (CbPhase.done true, CbPhase.done false) ∧
    (runTwoCallbacks 100 ("S") [⟨1, "S", 9999, none⟩]
        [false, true, false, true]).2 =
      (CbPhase.done true, CbPhase.done true) := by
  refine ⟨?_, ?_, ?_⟩
  · exact claim_C2_check_then_mark_consumption.1 [⟨1, "S", 9999, none⟩]
      100 100 ("S") ⟨1, "S", 9999, none⟩ _ (by decide) rfl
  · exact claim_C2_check_then_mark_consumption.2.1 1 9999 100 ("S") (by decide)
  · exact claim_C2_check_then_mark_consumption.2.2 1 9999 100 ("S") (by decide)

/-! ### Token manager (part_003 Flow 5, "Token Refresh Logic")

`getValidToken` loads the connection, decrypts both tokens, checks
`expires_at` against `Date.now() + 5 * 60 * 1000`, and — when expired —
performs the provider refresh round-trip; on any refresh failure it marks
the connection `expired`, emits the `connection.expired` webhook, and throws
`ConnectionExpiredError`. It never consults `connection.status`. -/

deriving instance DecidableEq for Except

/-- Connection lifecycle status values from the schema. -/
inductive ConnStatus where
  | pending
  | active
  | expired
  | revoked
  | error
deriving DecidableEq

/-- A `provider_connections` row (the columns the token manager touches);
token columns hold encrypted stored strings. -/
structure Connection where
  id : Nat
  project_id : Nat
  provider_id : Nat
  end_user_id : Nat
  access_token : List Char
  refresh_token : List Char
  expires_at : Option Nat
  status : ConnStatus
  error_message : Option String
deriving DecidableEq

/-- A provider token response (epoch milliseconds; `expiresIn` seconds). -/
structure TokenSet where
  accessToken : List Nat
  refreshToken : Option (List Nat)
  expiresIn : Nat
deriving DecidableEq

/-- Outcome of the provider's refresh round-trip, supplied as an argument
since the HTTP call is external. -/
inductive RefreshOutcome where
  | ok (tokens : TokenSet)
  | err (message : String)
deriving DecidableEq

/-- Result of one `getValidToken` call: the returned access token or thrown
error code, the connection row after the call, the number of provider
round-trips made, and the webhook events emitted. -/
structure TokenCall where
  result : Except String (List Nat)
  conn : Connection
  providerCalls : Nat
  webhooks : List String
deriving DecidableEq

/-- The expiry check
`connection.expires_at && new Date(connection.expires_at) <
new Date(Date.now() + 5 * 60 * 1000)` — a 5-minute buffer. -/
def isTokenExpired (now : Nat) (conn : Connection) : Bool :=
  match conn.expires_at with
  | none => false
  | some e => decide (e < now + 300000)

/-- `getValidToken(connectionId)` with the loaded row, the provider's
would-be refresh response, and the fresh IVs for re-encryption made
explicit. A failed decrypt (a throw in JS) is `DECRYPT_ERROR`, outside every
claim. -/
def getValidToken (key : List Nat) (now : Nat) (conn : Connection)
    (resp : RefreshOutcome) (ivA ivR : Nat → Nat) : TokenCall :=
  match decrypt key conn.access_token, decrypt key conn.refresh_token with
  | some accessToken, some _ =>
    if ¬ isTokenExpired now conn then
      { result := .ok accessToken, conn := conn, providerCalls := 0,
        webhooks := [] }
    else
      match resp with
      | .ok newTokens =>
        { result := .ok newTokens.accessToken,
          conn := { conn with
            access_token := encrypt key ivA newTokens.accessToken,
            refresh_token :=
              match newTokens.refreshToken with
              | some rt => encrypt key ivR rt
              | none => conn.refresh_token,
            expires_at := some (now + newTokens.expiresIn * 1000),
            status := .active },
          providerCalls := 1, webhooks := [] }
      | .err m =>
        { result := .error ("CONNECTION_EXPIRED"),
          conn := { conn with status := .expired, error_message := some m },
          providerCalls := 1, webhooks := [("connection.expired")] }
  | _, _ =>
    { result := .error ("DECRYPT_ERROR"), conn := conn, providerCalls := 0,
      webhooks := [] }

/-- Stored encrypted access token for the concrete token-manager runs. -/
def tm_access_enc : List Char := encrypt [3] (fun i => i) [65]

/-- Stored encrypted refresh token for the concrete token-manager runs. -/
def tm_refresh_enc : List Char := encrypt [3] (fun i => i + 1) [66]

/-- A revoked connection whose access token never expires. -/
def c3_conn : Connection :=
  ⟨1, 1, 1, 1, tm_access_enc, tm_refresh_enc, none, .revoked, none⟩

/-- A revoked connection whose access token expired long ago. -/
def c3_conn_expired : Connection := { c3_conn with expires_at := some 0 }

/-- C3 counterexample: `getValidToken` on a `revoked` connection neither
returns `CONNECTION_REVOKED` nor fails fast — with an unexpired token it
returns the decrypted token (no error), and with an expired token it makes
a provider refresh round-trip. -/
theorem claim_C3_counterexample :
    (getValidToken [3] 1700000000000 c3_conn (.err ("x")) (fun i => i)
        (fun i => i)).result = .ok [65] ∧
    (getValidToken [3] 1700000000000 c3_conn (.err ("x")) (fun i => i)
        (fun i => i)).providerCalls = 0 ∧
    (getValidToken [3] 1700000000000 c3_conn (.err ("x")) (fun i => i)
        (fun i => i)).result ≠ .error ("CONNECTION_REVOKED") ∧
    (getValidToken [3] 1700000000000 c3_conn_expired (.err ("x"))
        (fun i => i) (fun i => i)).providerCalls = 1 := by
  refine ⟨by decide, by decide, by decide, by decide⟩

/-- C3 amended: `getValidToken` never inspects the connection status — its
returned value, provider round-trips, and emitted webhooks are identical
whatever the stored status, so a terminal (`expired`/`revoked`) connection is
served or refreshed exactly like an `active` one, and `CONNECTION_EXPIRED`
arises only from a failed refresh. -/
theorem claim_C3_status_never_consulted (key : List Nat) (now : Nat)
    (conn : Connection) (resp : RefreshOutcome) (ivA ivR : Nat → Nat)
    (s₁ s₂ : ConnStatus) :
    (getValidToken key now { conn with status := s₁ } resp ivA ivR).result =
      (getValidToken key now { conn with status := s₂ } resp ivA ivR).result ∧
    (getValidToken key now { conn with status := s₁ } resp ivA
        ivR).providerCalls =
      (getValidToken key now { conn with status := s₂ } resp ivA
        ivR).providerCalls ∧
    (getValidToken key now { conn with status := s₁ } resp ivA ivR).webhooks =
      (getValidToken key now { conn with status := s₂ } resp ivA
        ivR).webhooks := by
  unfold getValidToken
  dsimp only
  cases hd : decrypt key conn.access_token with
  | none => simp
  | some a =>
    cases hr : decrypt key conn.refresh_token with
    | none => simp
    | some r =>
      by_cases he : isTokenExpired now { conn with status := s₁ }
      · have he₂ : isTokenExpired now { conn with status := s₂ } := he
        cases resp <;> simp [he, he₂]
      · have he₂ : ¬ isTokenExpired now { conn with status := s₂ } := he
        simp [he, he₂]

/-- An active connection whose access token expired long ago. -/
def c4_conn : Connection :=
  ⟨2, 1, 1, 1, tm_access_enc, tm_refresh_enc, some 0, .active, none⟩

/-- C4 counterexample: a refresh failure whose provider message is
`invalid_grant` (the refresh token explicitly invalid/revoked) still marks
the connection `expired`, emits `connection.expired`, and surfaces
`CONNECTION_EXPIRED` — not status `revoked` with `connection.revoked`, and
not an unchanged status with `PROVIDER_ERROR`: the catch block never
classifies the failure. -/
theorem claim_C4_counterexample :
    (getValidToken [3] 1700000000000 c4_conn (.err ("invalid_grant"))
        (fun i => i) (fun i => i)).conn.status = .expired ∧
    (getValidToken [3] 1700000000000 c4_conn (.err ("invalid_grant"))
        (fun i => i) (fun i => i)).webhooks = [("connection.expired")] ∧
    (getValidToken [3] 1700000000000 c4_conn (.err ("invalid_grant"))
        (fun i => i) (fun i => i)).result = .error ("CONNECTION_EXPIRED") ∧
    (getValidToken [3] 1700000000000 c4_conn (.err ("invalid_grant"))
        (fun i => i) (fun i => i)).conn.status ≠ .revoked ∧
    (getValidToken [3] 1700000000000 c4_conn (.err ("invalid_grant"))
        (fun i => i) (fun i => i)).webhooks ≠ [("connection.revoked")] := by
  refine ⟨by decide, by decide, by decide, by decide, by decide⟩

/-- C4 amended: every refresh failure is handled uniformly, without
classification: whatever the provider's error, the connection is marked
`expired` with the error message recorded, the `connection.expired` webhook
is emitted, and `CONNECTION_EXPIRED` is surfaced to the caller. -/
theorem claim_C4_uniform_refresh_failure (key : List Nat) (now : Nat)
    (conn : Connection) (ivA ivR : Nat → Nat) (a r : List Nat) (m : String)
    (ha : decrypt key conn.access_token = some a)
    (hr : decrypt key conn.refresh_token = some r)
    (he : isTokenExpired now conn = true) :
    getValidToken key now conn (.err m) ivA ivR =
      { result := .error ("CONNECTION_EXPIRED"),
        conn := { conn with status := .expired, error_message := some m },
        providerCalls := 1, webhooks := [("connection.expired")] } := by
  unfold getValidToken
  rw [ha, hr]
  simp [he]

/-- C4 witness: the amended theorem at the concrete expired connection. -/
theorem claim_C4_witness :
    getValidToken [3] 1700000000000 c4_conn (.err ("invalid_grant"))
        (fun i => i) (fun i => i) =
      { result := .error ("CONNECTION_EXPIRED"),
        conn := { c4_conn with
                  status := .expired,
                  error_message := some ("invalid_grant") },
        providerCalls := 1, webhooks := [("connection.expired")] } :=
  claim_C4_uniform_refresh_failure [3] 1700000000000 c4_conn (fun i => i)
    (fun i => i) [65] [66] ("invalid_grant") (by decide) (by decide)
    (by decide)

/-! ### Claim C6: the freshness buffer -/

/-- Modelled from the spec: the token is returned without refresh exactly
when `expires_at` is null or lies in the future by more than a 60-second
skew buffer. -/
def specC6_freshPath (now : Nat) (conn : Connection) : Bool :=
  match conn.expires_at with
  | none => true
  | some e => decide (now + 60000 < e)

/-- An active connection expiring 120 s after the concrete `now`. -/
def c6_conn : Connection :=
  ⟨3, 1, 1, 1, tm_access_enc, tm_refresh_enc, some 1700000120000, .active,
    none⟩

/-- C6 counterexample: with `expires_at` 120 s in the future — more than the
claimed 60-second buffer — the claim predicts the fresh path, but the code's
5-minute buffer sends the call into the refresh path (one provider
round-trip). -/
theorem claim_C6_counterexample :
    specC6_freshPath 1700000000000 c6_conn = true ∧
    (getValidToken [3] 1700000000000 c6_conn (.ok ⟨[65], none, 3600⟩)
        (fun i => i) (fun i => i)).providerCalls = 1 := by
  refine ⟨by decide, by decide⟩

/-- C6 amended: the decrypted access token is returned without entering the
refresh path exactly when `expires_at` is null or at least 300 seconds
(5 minutes, the code's buffer) in the future; otherwise the refresh path is
entered. -/
theorem claim_C6_freshness_buffer (key : List Nat) (now : Nat)
    (conn : Connection) (resp : RefreshOutcome) (ivA ivR : Nat → Nat)
    (a r : List Nat)
    (ha : decrypt key conn.access_token = some a)
    (hr : decrypt key conn.refresh_token = some r) :
    ((getValidToken key now conn resp ivA ivR).providerCalls = 0 ∧
      (getValidToken key now conn resp ivA ivR).result = .ok a) ↔
    (conn.expires_at = none ∨
      ∃ e, conn.expires_at = some e ∧ now + 300000 ≤ e) := by
  unfold getValidToken
  rw [ha, hr]
  cases hexp : conn.expires_at with
  | none => simp [isTokenExpired, hexp]
  | some e =>
    by_cases hlt : e < now + 300000
    · cases resp <;> simp [isTokenExpired, hexp, hlt]
    · simp [isTokenExpired, hexp, hlt]
      omega

/-- C6 witness: the amended theorem at the never-expiring concrete
connection (status aside, `c3_conn`), fresh path taken. -/
theorem claim_C6_witness :
    (getValidToken [3] 1700000000000 c3_conn (.err ("x")) (fun i => i)
        (fun i => i)).providerCalls = 0 ∧
    (getValidToken [3] 1700000000000 c3_conn (.err ("x")) (fun i => i)
        (fun i => i)).result = .ok [65] :=
  (claim_C6_freshness_buffer [3] 1700000000000 c3_conn (.err ("x"))
      (fun i => i) (fun i => i) [65] [66] (by decide) (by decide)).mpr
    (Or.inl rfl)

/-! ### Claim C5: concurrent refreshes (no single-flight)

Each concurrent caller of `getValidToken` is split at its only suspension
point between reading the row and writing it — the provider refresh HTTP
round-trip. Step one loads the row, decrypts, and runs the expiry check;
step two performs the round-trip and the database write. The code has no
single-flight map, so nothing coordinates the two callers. -/

/-- Shared state for concurrent refreshes: the connection row and the number
of provider refresh round-trips performed so far. -/
structure RefreshEnv where
  conn : Connection
  calls : Nat
deriving DecidableEq

/-- Progress of one `getValidToken` caller: not started; past the expiry
check and about to make the provider round-trip; finished with its result. -/
inductive RefPhase where
  | start
  | willRefresh
  | done (result : Except String (List Nat))
deriving DecidableEq

/-- The connection row as persisted by a successful refresh (the update block
of `getValidToken`). -/
def refreshedConn (key : List Nat) (now : Nat) (ivA ivR : Nat → Nat)
    (conn : Connection) (t : TokenSet) : Connection :=
  { conn with
    access_token := encrypt key ivA t.accessToken,
    refresh_token :=
      match t.refreshToken with
      | some rt => encrypt key ivR rt
      | none => conn.refresh_token,
    expires_at := some (now + t.expiresIn * 1000),
    status := .active }

/-- The connection row as persisted by a failed refresh (the catch block of
`getValidToken`). -/
def failedConn (conn : Connection) (m : String) : Connection :=
  { conn with status := .expired, error_message := some m }

/-- One step of a `getValidToken` caller (same checks and writes as
`getValidToken`, split at the refresh round-trip). -/
def refStep (key : List Nat) (now : Nat) (resp : RefreshOutcome)
    (ivA ivR : Nat → Nat) :
    RefreshEnv × RefPhase → RefreshEnv × RefPhase
  | (env, .start) =>
    match decrypt key env.conn.access_token,
        decrypt key env.conn.refresh_token with
    | some a, some _ =>
      if ¬ isTokenExpired now env.conn then (env, .done (.ok a))
      else (env, .willRefresh)
    | _, _ => (env, .done (.error ("DECRYPT_ERROR")))
  | (env, .willRefresh) =>
    match resp with
    | .ok t =>
      (⟨refreshedConn key now ivA ivR env.conn t, env.calls + 1⟩,
        .done (.ok t.accessToken))
    | .err m =>
      (⟨failedConn env.conn m, env.calls + 1⟩,
        .done (.error ("CONNECTION_EXPIRED")))
  | (env, .done r) => (env, .done r)

/-- Interleaved execution of two concurrent `getValidToken` callers on the
same connection; `sched` says which caller (`false` = A, `true` = B) takes
its next step. -/
def runTwoRefreshes (key : List Nat) (now : Nat) (resp : RefreshOutcome)
    (ivA ivR : Nat → Nat) (conn : Connection) (sched : List Bool) :
    RefreshEnv × RefPhase × RefPhase :=
  sched.foldl
    (fun acc b =>
      match acc with
      | (env, pa, pb) =>
        if b then
          match refStep key now resp ivA ivR (env, pb) with
          | (env', pb') => (env', pa, pb')
        else
          match refStep key now resp ivA ivR (env, pa) with
          | (env', pa') => (env', pa', pb))
    (⟨conn, 0⟩, .start, .start)

/-- C5 counterexample: an expired connection and two concurrent callers that
both pass the expiry check before either refresh completes: the provider
token endpoint is hit twice in the same overlapping window, not at most
once. -/
theorem claim_C5_counterexample :
    (runTwoRefreshes [3] 1700000000000 (.ok ⟨[65], none, 3600⟩) (fun i => i)
        (fun i => i) c4_conn [false, true, false, true]).1.calls = 2 := by
  decide

/-- C5 amended: there is no single-flight coalescing — each caller that
observes an expired token performs its own provider round-trip. Two
concurrent callers that both run the expiry check before either refresh
completes make two provider calls (each finishing with its own refreshed
token); only when one caller's refresh fully precedes the other does the
second observe the freshly persisted token and skip the round-trip (one
call, both callers receive the refreshed token without error). -/
theorem claim_C5_no_single_flight (key : List Nat) (now : Nat)
    (conn : Connection) (t : TokenSet) (ivA ivR : Nat → Nat) (a r : List Nat)
    (ha : decrypt key conn.access_token = some a)
    (hr : decrypt key conn.refresh_token = some r)
    (he : isTokenExpired now conn = true)
    (ht : t.refreshToken = none)
    (hacc : ∀ b ∈ t.accessToken, b < 256)
    (hexpIn : 300 ≤ t.expiresIn) :
    ((runTwoRefreshes key now (.ok t) ivA ivR conn
        [false, true, false, true]).1.calls = 2 ∧
      (runTwoRefreshes key now (.ok t) ivA ivR conn
          [false, true, false, true]).2 =
        (.done (.ok t.accessToken), .done (.ok t.accessToken))) ∧
    ((runTwoRefreshes key now (.ok t) ivA ivR conn
        [false, false, true, true]).1.calls = 1 ∧
      (runTwoRefreshes key now (.ok t) ivA ivR conn
          [false, false, true, true]).2 =
        (.done (.ok t.accessToken), .done (.ok t.accessToken))) := by
  have hdecA : decrypt key (encrypt key ivA t.accessToken) =
      some t.accessToken :=
    decrypt_encryptWithIV key (mkIV ivA) t.accessToken (mkIV_lt ivA) hacc
  have hconnA : (refreshedConn key now ivA ivR conn t).access_token =
      encrypt key ivA t.accessToken := by
    simp [refreshedConn]
  have hconnR : (refreshedConn key now ivA ivR conn t).refresh_token =
      conn.refresh_token := by
    simp [refreshedConn, ht]
  have hfresh2 : isTokenExpired now (refreshedConn key now ivA ivR conn t) =
      false := by
    simp [isTokenExpired, refreshedConn]
    omega
  constructor
  · simp [runTwoRefreshes, refStep, ha, hr, he, ht]
  · simp [runTwoRefreshes, refStep, ha, hr, he, ht, hconnA, hconnR, hdecA,
      hfresh2]

/-- C5 witness: the amended theorem at the concrete expired connection, for
the racing and the serialized schedules. -/
theorem claim_C5_witness :
    ((runTwoRefreshes [3] 1700000000000 (.ok ⟨[65], none, 3600⟩)
        (fun i => i) (fun i => i) c4_conn [false, true, false, true]).1.calls =
        2 ∧
      (runTwoRefreshes [3] 1700000000000 (.ok ⟨[65], none, 3600⟩)
          (fun i => i) (fun i => i) c4_conn [false, true, false, true]).2 =
        (.done (.ok [65]), .done (.ok [65]))) ∧
    ((runTwoRefreshes [3] 1700000000000 (.ok ⟨[65], none, 3600⟩)
        (fun i => i) (fun i => i) c4_conn [false, false, true, true]).1.calls =
        1 ∧
      (runTwoRefreshes [3] 1700000000000 (.ok ⟨[65], none, 3600⟩)
          (fun i => i) (fun i => i) c4_conn [false, false, true, true]).2 =
        (.done (.ok [65]), .done (.ok [65]))) :=
  claim_C5_no_single_flight [3] 1700000000000 c4_conn ⟨[65], none, 3600⟩
    (fun i => i) (fun i => i) [65] [66] (by decide) (by decide) (by decide)
    rfl (by decide) (by decide)

end LinkMono
